import Mathlib

/-!
Verification of the amortization core of `payments.py` (mortgage calculator).

The Python source is embedded shallowly over `ℚ` (exact arithmetic in place of
IEEE doubles; the spec states the algebraic identities in exact terms).
Python expressions that raise exceptions — division by zero in `/` or in
`x ** n` with `x = 0` and `n < 0`, and out-of-bounds list indexing — are
modelled by `Option`, with `none` for the raising executions.
-/

/-- One period of the schedule, as appended by the loop body of
`calc_schedule` (payments.py lines 188-202): the payment, its interest and
principal components, the 1-based month index, and the outstanding principal
after the payment. -/
structure Row where
  payment : ℚ
  interest : ℚ
  principal : ℚ
  month : ℕ
  out_prin : ℚ
deriving DecidableEq

/-- Embedding of `calc_mon_pay` (payments.py lines 128-156).

`payment = out_prin * (int_rate/(12*100)) / (1 - (1 + int_rate/(12*100))**(-months))`,
`interest = (int_rate/(12*100)) * out_prin`, `principal = payment - interest`.

The two guards return `none` exactly where Python raises `ZeroDivisionError`:
`0.0 ** (-months)` with a negative exponent, and division by a zero
denominator.  There is no input validation in the source. -/
def calc_mon_pay (out_prin : ℚ) (months : ℕ) (int_rate : ℚ) : Option (ℚ × ℚ × ℚ) :=
  if 1 + int_rate / (12 * 100) = 0 ∧ 0 < months then none
  else if 1 - (1 + int_rate / (12 * 100)) ^ (-(months : ℤ)) = 0 then none
  else some
    (out_prin * (int_rate / (12 * 100)) /
       (1 - (1 + int_rate / (12 * 100)) ^ (-(months : ℤ))),
     (int_rate / (12 * 100)) * out_prin,
     out_prin * (int_rate / (12 * 100)) /
       (1 - (1 + int_rate / (12 * 100)) ^ (-(months : ℤ)))
       - (int_rate / (12 * 100)) * out_prin)

/-- The loop of `calc_schedule` (payments.py lines 188-207), by recursion on
the number of loop iterations still allowed.  When the loop variable `months`
has value `month` and the term has `N = years*12` periods, the remaining
iteration count is `N - month + 1`; the recursion carries it as the first
`ℕ` argument, so the `calc_mon_pay` call receives exactly
`years*12 - months + 1` as in line 191.  After each payment the balance
drops by the principal component (line 194) and the loop breaks once the
new balance is `≤ 0` (lines 206-207), after appending that period.
An exception from `calc_mon_pay` propagates (`Option.bind`). -/
def calc_sched_aux (int_rate : ℚ) : ℕ → ℕ → ℚ → Option (List Row)
  | 0, _, _ => some []
  | k+1, month, out_prin =>
    (calc_mon_pay out_prin (k+1) int_rate).bind (fun t =>
      if out_prin - t.2.2 ≤ 0 then
        some [⟨t.1, t.2.1, t.2.2, month, out_prin - t.2.2⟩]
      else
        (calc_sched_aux int_rate k (month+1) (out_prin - t.2.2)).map
          (fun rest => ⟨t.1, t.2.1, t.2.2, month, out_prin - t.2.2⟩ :: rest))

/-- Embedding of `calc_schedule` (payments.py lines 159-209): iterate from
month 1 with the balance initialized to the loan amount (line 185), and
return the five history lists `[pay_h, int_h, prin_h, month_h, out_prin_h]`. -/
def calc_schedule (loan_amt : ℚ) (years : ℕ) (int_rate : ℚ) :
    Option (List ℚ × List ℚ × List ℚ × List ℕ × List ℚ) :=
  (calc_sched_aux int_rate (years * 12) 1 loan_amt).map
    (fun rows =>
      (rows.map Row.payment, rows.map Row.interest, rows.map Row.principal,
       rows.map Row.month, rows.map Row.out_prin))

/-- Summary step of `main` (payments.py lines 252-254): the reported monthly
payment is the first period's bank payment `pay_h[0]` plus the fixed monthly
charges.  (Python would raise on an empty `pay_h`; the theorems only apply
this to nonempty histories.) -/
def mon_pay_of (pay_h : List ℚ) (mon_hoa mon_home_ins mon_prop_tax : ℚ) : ℚ :=
  pay_h.getD 0 0 + mon_hoa + mon_home_ins + mon_prop_tax

/-- Summary step of `main` (payments.py line 258): total interest is the sum
of the interest components, in list order. -/
def tot_int_of (int_h : List ℚ) : ℚ := int_h.sum

/-- Summary step of `main` (payments.py line 278): total payment over the
life of the loan, `down_pay + years*12*mon_pay`. -/
def tot_pay_of (down_pay : ℚ) (years : ℕ) (mon_pay : ℚ) : ℚ :=
  down_pay + (years : ℚ) * 12 * mon_pay

/-- The 7-year early-window block of `main` (payments.py lines 286-297):
`int_7yr = sum(int_h[0:7*12])` (a slice, which silently truncates),
`int_7yr_tot_rat = int_7yr / tot_int * 100`, and
`out_prin_7yr = out_prin_h[7*12-1]` (an indexing, which raises `IndexError`
when the history is shorter than `7*12` periods).  `none` models the raising
executions: a zero `tot_int` (ZeroDivisionError) or a too-short history. -/
def window_summary (int_h out_prin_h : List ℚ) (tot_int : ℚ) : Option (ℚ × ℚ × ℚ) :=
  if tot_int = 0 then none
  else
    (out_prin_h[7 * 12 - 1]?).map
      (fun b => ((int_h.take (7 * 12)).sum,
                 (int_h.take (7 * 12)).sum / tot_int * 100, b))

/-- Outstanding balance when `k` periods remain, for a loan at rate
`int_rate` whose constant periodic payment is `P`:
`P * (1 - (1+r)^(-k)) / r`.  This is the closed form the schedule follows. -/
def balAt (int_rate P : ℚ) (k : ℕ) : ℚ :=
  P * (1 - (1 + int_rate / (12 * 100)) ^ (-(k : ℤ))) / (int_rate / (12 * 100))

/-- The constant annuity payment for a loan of `L` over `N` periods:
`L * r / (1 - (1+r)^(-N))` with `r = int_rate/(12*100)`. -/
def annuityP (L : ℚ) (N : ℕ) (int_rate : ℚ) : ℚ :=
  L * (int_rate / (12 * 100)) /
    (1 - (1 + int_rate / (12 * 100)) ^ (-(N : ℤ)))

/-- The schedule a positive-rate loan follows in exact arithmetic, written
in closed form: with `k` periods remaining and constant payment `P`, the
period pays `P`, of which `r * balAt k` is interest, and leaves balance
`balAt (k-1)`. -/
def schedList (int_rate P : ℚ) : ℕ → ℕ → List Row
  | 0, _ => []
  | k+1, month =>
    ⟨P, (int_rate / (12 * 100)) * balAt int_rate P (k+1),
     P - (int_rate / (12 * 100)) * balAt int_rate P (k+1), month,
     balAt int_rate P k⟩ :: schedList int_rate P k (month+1)

/-! ### Basic facts about the periodic rate and the annuity denominator -/

lemma rate_one_lt {int_rate : ℚ} (hr : 0 < int_rate) :
    1 < 1 + int_rate / (12 * 100) := by
  have h : 0 < int_rate / (12 * 100) := div_pos hr (by norm_num)
  linarith

lemma rate_zpow_eq_inv_pow (int_rate : ℚ) (m : ℕ) :
    (1 + int_rate / (12 * 100)) ^ (-(m : ℤ))
      = ((1 + int_rate / (12 * 100)) ^ m)⁻¹ := by
  rw [zpow_neg, zpow_natCast]

lemma rate_zpow_pos {int_rate : ℚ} (hr : 0 < int_rate) (m : ℕ) :
    0 < (1 + int_rate / (12 * 100)) ^ (-(m : ℤ)) := by
  rw [rate_zpow_eq_inv_pow]
  exact inv_pos.mpr (pow_pos (lt_trans one_pos (rate_one_lt hr)) m)

lemma rate_zpow_lt_one {int_rate : ℚ} (hr : 0 < int_rate) {m : ℕ} (hm : 1 ≤ m) :
    (1 + int_rate / (12 * 100)) ^ (-(m : ℤ)) < 1 := by
  rw [rate_zpow_eq_inv_pow]
  exact inv_lt_one_of_one_lt₀ (one_lt_pow₀ (rate_one_lt hr) (by omega))

lemma denom_pos {int_rate : ℚ} (hr : 0 < int_rate) {m : ℕ} (hm : 1 ≤ m) :
    0 < 1 - (1 + int_rate / (12 * 100)) ^ (-(m : ℤ)) := by
  have h := rate_zpow_lt_one hr hm
  linarith

/-! ### Unfolding lemmas for `calc_mon_pay` -/

lemma calc_mon_pay_eq_some {out_prin int_rate : ℚ} {months : ℕ}
    (h1 : ¬(1 + int_rate / (12 * 100) = 0 ∧ 0 < months))
    (h2 : 1 - (1 + int_rate / (12 * 100)) ^ (-(months : ℤ)) ≠ 0) :
    calc_mon_pay out_prin months int_rate = some
      (out_prin * (int_rate / (12 * 100)) /
         (1 - (1 + int_rate / (12 * 100)) ^ (-(months : ℤ))),
       (int_rate / (12 * 100)) * out_prin,
       out_prin * (int_rate / (12 * 100)) /
         (1 - (1 + int_rate / (12 * 100)) ^ (-(months : ℤ)))
         - (int_rate / (12 * 100)) * out_prin) := by
  rw [calc_mon_pay, if_neg h1, if_neg h2]

lemma calc_mon_pay_inv {out_prin int_rate p i pr : ℚ} {months : ℕ}
    (h : calc_mon_pay out_prin months int_rate = some (p, i, pr)) :
    1 - (1 + int_rate / (12 * 100)) ^ (-(months : ℤ)) ≠ 0 ∧
    p = out_prin * (int_rate / (12 * 100)) /
          (1 - (1 + int_rate / (12 * 100)) ^ (-(months : ℤ))) ∧
    i = (int_rate / (12 * 100)) * out_prin ∧
    pr = p - i := by
  rw [calc_mon_pay] at h
  split_ifs at h with h1 h2
  have h' := Option.some.inj h
  injection h' with hp h''
  injection h'' with hi hpr
  exact ⟨h2, hp.symm, hi.symm, by rw [← hpr, ← hp, ← hi]⟩

lemma calc_mon_pay_zero_rate (out_prin : ℚ) (months : ℕ) :
    calc_mon_pay out_prin months 0 = none := by
  simp [calc_mon_pay]

lemma calc_mon_pay_pos_rate {int_rate : ℚ} (hr : 0 < int_rate) {months : ℕ}
    (hm : 1 ≤ months) (out_prin : ℚ) :
    calc_mon_pay out_prin months int_rate = some
      (out_prin * (int_rate / (12 * 100)) /
         (1 - (1 + int_rate / (12 * 100)) ^ (-(months : ℤ))),
       (int_rate / (12 * 100)) * out_prin,
       out_prin * (int_rate / (12 * 100)) /
         (1 - (1 + int_rate / (12 * 100)) ^ (-(months : ℤ)))
         - (int_rate / (12 * 100)) * out_prin) := by
  refine calc_mon_pay_eq_some ?_ (denom_pos hr hm).ne'
  rintro ⟨habs, -⟩
  have h := rate_one_lt hr
  linarith

lemma principal_closed (r v b : ℚ) (hv : 1 - v ≠ 0) :
    b * r / (1 - v) - r * b = r * b * v / (1 - v) := by
  field_simp
  ring

lemma calc_mon_pay_principal_pos {out_prin int_rate p i pr : ℚ} {months : ℕ}
    (hr : 0 < int_rate) (hm : 1 ≤ months) (hb : 0 < out_prin)
    (h : calc_mon_pay out_prin months int_rate = some (p, i, pr)) :
    0 < pr := by
  obtain ⟨hd, hp, hi, hpr⟩ := calc_mon_pay_inv h
  have hD := denom_pos hr hm
  have hv := rate_zpow_pos hr months
  have hr' : 0 < int_rate / (12 * 100) := div_pos hr (by norm_num)
  have hpr' : pr = (int_rate / (12 * 100)) * out_prin *
      (1 + int_rate / (12 * 100)) ^ (-(months : ℤ)) /
      (1 - (1 + int_rate / (12 * 100)) ^ (-(months : ℤ))) := by
    rw [hpr, hp, hi]
    exact principal_closed _ _ _ hD.ne'
  rw [hpr']
  positivity

lemma calc_mon_pay_split {out_prin int_rate p i pr : ℚ} {months : ℕ}
    (h : calc_mon_pay out_prin months int_rate = some (p, i, pr)) :
    p = i + pr := by
  obtain ⟨-, -, -, hpr⟩ := calc_mon_pay_inv h
  rw [hpr]
  ring

/-! ### Structural lemmas for the schedule loop -/

lemma aux_some_inv {int_rate : ℚ} {k month : ℕ} {out_prin : ℚ} {rows : List Row}
    (h : calc_sched_aux int_rate (k+1) month out_prin = some rows) :
    ∃ p i pr, calc_mon_pay out_prin (k+1) int_rate = some (p, i, pr) ∧
      ((out_prin - pr ≤ 0 ∧ rows = [⟨p, i, pr, month, out_prin - pr⟩]) ∨
       (0 < out_prin - pr ∧ ∃ rest,
          calc_sched_aux int_rate k (month+1) (out_prin - pr) = some rest ∧
          rows = ⟨p, i, pr, month, out_prin - pr⟩ :: rest)) := by
  simp only [calc_sched_aux] at h
  rw [Option.bind_eq_some] at h
  obtain ⟨⟨p, i, pr⟩, hc, hf⟩ := h
  dsimp only at hf
  refine ⟨p, i, pr, hc, ?_⟩
  by_cases hle : out_prin - pr ≤ 0
  · rw [if_pos hle] at hf
    exact Or.inl ⟨hle, (Option.some.inj hf).symm⟩
  · rw [if_neg hle] at hf
    rw [Option.map_eq_some'] at hf
    obtain ⟨rest, hrest, hrows⟩ := hf
    exact Or.inr ⟨lt_of_not_le hle, rest, hrest, hrows.symm⟩

lemma aux_step_last {int_rate out_prin p i pr b' : ℚ} {k month : ℕ}
    (hc : calc_mon_pay out_prin (k+1) int_rate = some (p, i, pr))
    (hb' : out_prin - pr = b') (hle : b' ≤ 0) :
    calc_sched_aux int_rate (k+1) month out_prin = some [⟨p, i, pr, month, b'⟩] := by
  subst hb'
  simp only [calc_sched_aux, hc, Option.some_bind]
  rw [if_pos hle]

lemma aux_step_cont {int_rate out_prin p i pr b' : ℚ} {k month : ℕ} {rest : List Row}
    (hc : calc_mon_pay out_prin (k+1) int_rate = some (p, i, pr))
    (hb' : out_prin - pr = b') (hpos : ¬ b' ≤ 0)
    (hrest : calc_sched_aux int_rate k (month+1) b' = some rest) :
    calc_sched_aux int_rate (k+1) month out_prin
      = some (⟨p, i, pr, month, b'⟩ :: rest) := by
  subst hb'
  simp only [calc_sched_aux, hc, Option.some_bind]
  rw [if_neg hpos, hrest]
  rfl

lemma aux_zero_rate (k month : ℕ) (out_prin : ℚ) :
    calc_sched_aux 0 (k+1) month out_prin = none := by
  simp only [calc_sched_aux, calc_mon_pay_zero_rate, Option.none_bind]

lemma aux_length_le (int_rate : ℚ) :
    ∀ (k month : ℕ) (out_prin : ℚ) (rows : List Row),
      calc_sched_aux int_rate k month out_prin = some rows → rows.length ≤ k
  | 0, month, b, rows, h => by
      have h' : (some [] : Option (List Row)) = some rows := h
      have : rows = [] := (Option.some.inj h').symm
      simp [this]
  | k+1, month, b, rows, h => by
      obtain ⟨p, i, pr, hc, hcase⟩ := aux_some_inv h
      rcases hcase with ⟨hle, rfl⟩ | ⟨hpos, rest, hrest, rfl⟩
      · simp
      · have ih := aux_length_le int_rate k (month+1) (b - pr) rest hrest
        simp only [List.length_cons]
        omega

lemma aux_chain (int_rate : ℚ) :
    ∀ (k month : ℕ) (out_prin : ℚ) (rows : List Row),
      calc_sched_aux int_rate k month out_prin = some rows →
      ∀ j, j < rows.length →
        (rows.map Row.out_prin).getD j 0
          = (out_prin :: rows.map Row.out_prin).getD j 0
            - (rows.map Row.principal).getD j 0
  | 0, month, b, rows, h => by
      have h' : (some [] : Option (List Row)) = some rows := h
      have : rows = [] := (Option.some.inj h').symm
      subst this
      intro j hj
      simp at hj
  | k+1, month, b, rows, h => by
      obtain ⟨p, i, pr, hc, hcase⟩ := aux_some_inv h
      rcases hcase with ⟨hle, rfl⟩ | ⟨hpos, rest, hrest, rfl⟩
      · intro j hj
        simp only [List.length_singleton] at hj
        obtain rfl : j = 0 := by omega
        simp
      · intro j hj
        cases j with
        | zero => simp
        | succ j' =>
            have ih := aux_chain int_rate k (month+1) (b - pr) rest hrest j'
              (by simpa using hj)
            simpa using ih

lemma aux_split (int_rate : ℚ) :
    ∀ (k month : ℕ) (out_prin : ℚ) (rows : List Row),
      calc_sched_aux int_rate k month out_prin = some rows →
      ∀ row ∈ rows, row.payment = row.interest + row.principal
  | 0, month, b, rows, h => by
      have h' : (some [] : Option (List Row)) = some rows := h
      have : rows = [] := (Option.some.inj h').symm
      subst this
      intro row hrow
      simp at hrow
  | k+1, month, b, rows, h => by
      obtain ⟨p, i, pr, hc, hcase⟩ := aux_some_inv h
      have hsplit := calc_mon_pay_split hc
      rcases hcase with ⟨hle, rfl⟩ | ⟨hpos, rest, hrest, rfl⟩
      · intro row hrow
        simp only [List.mem_singleton] at hrow
        subst hrow
        exact hsplit
      · intro row hrow
        rcases List.mem_cons.mp hrow with rfl | hmem
        · exact hsplit
        · exact aux_split int_rate k (month+1) (b - pr) rest hrest row hmem

lemma aux_pos_before_last (int_rate : ℚ) :
    ∀ (k month : ℕ) (out_prin : ℚ) (rows : List Row),
      calc_sched_aux int_rate k month out_prin = some rows →
      ∀ j, j + 1 < rows.length → 0 < (rows.map Row.out_prin).getD j 0
  | 0, month, b, rows, h => by
      have h' : (some [] : Option (List Row)) = some rows := h
      have : rows = [] := (Option.some.inj h').symm
      subst this
      intro j hj
      simp at hj
  | k+1, month, b, rows, h => by
      obtain ⟨p, i, pr, hc, hcase⟩ := aux_some_inv h
      rcases hcase with ⟨hle, rfl⟩ | ⟨hpos, rest, hrest, rfl⟩
      · intro j hj
        simp at hj
      · intro j hj
        cases j with
        | zero => simpa using hpos
        | succ j' =>
            have ih := aux_pos_before_last int_rate k (month+1) (b - pr) rest hrest j'
              (by simpa using hj)
            simpa using ih

lemma aux_short_last (int_rate : ℚ) :
    ∀ (k month : ℕ) (out_prin : ℚ) (rows : List Row),
      calc_sched_aux int_rate k month out_prin = some rows →
      rows.length < k →
      0 < rows.length ∧ (rows.map Row.out_prin).getD (rows.length - 1) 0 ≤ 0
  | 0, month, b, rows, h => by
      intro hlt
      omega
  | k+1, month, b, rows, h => by
      intro hlt
      obtain ⟨p, i, pr, hc, hcase⟩ := aux_some_inv h
      rcases hcase with ⟨hle, rfl⟩ | ⟨hpos, rest, hrest, rfl⟩
      · refine ⟨by simp, ?_⟩
        simpa using hle
      · have hrl : rest.length < k := by
          simp only [List.length_cons] at hlt
          omega
        obtain ⟨hpos', hlast⟩ := aux_short_last int_rate k (month+1) (b - pr) rest hrest hrl
        refine ⟨by simp, ?_⟩
        simp only [List.length_cons, List.map_cons]
        have hidx : rest.length + 1 - 1 = (rest.length - 1) + 1 := by omega
        rw [hidx, List.getD_cons_succ]
        exact hlast

lemma aux_monotone {int_rate : ℚ} (hr : 0 < int_rate) :
    ∀ (k month : ℕ) (out_prin : ℚ) (rows : List Row),
      0 < out_prin →
      calc_sched_aux int_rate k month out_prin = some rows →
      ∀ j, j < rows.length →
        (rows.map Row.out_prin).getD j 0
          ≤ (out_prin :: rows.map Row.out_prin).getD j 0
  | 0, month, b, rows, h, hsome => by
      have h' : (some [] : Option (List Row)) = some rows := hsome
      have : rows = [] := (Option.some.inj h').symm
      subst this
      intro j hj
      simp at hj
  | k+1, month, b, rows, hb, hsome => by
      obtain ⟨p, i, pr, hc, hcase⟩ := aux_some_inv hsome
      have hpr : 0 < pr := calc_mon_pay_principal_pos hr (by omega) hb hc
      rcases hcase with ⟨hle, rfl⟩ | ⟨hpos, rest, hrest, rfl⟩
      · intro j hj
        simp only [List.length_singleton] at hj
        obtain rfl : j = 0 := by omega
        simp only [List.map_cons, List.map_nil, List.getD_cons_zero]
        linarith
      · intro j hj
        cases j with
        | zero =>
            simp only [List.map_cons, List.getD_cons_zero]
            linarith
        | succ j' =>
            have ih := aux_monotone hr k (month+1) (b - pr) rest hpos hrest j'
              (by simpa using hj)
            simpa using ih

lemma calc_schedule_inv {loan_amt int_rate : ℚ} {years : ℕ}
    {p i pr : List ℚ} {mo : List ℕ} {o : List ℚ}
    (h : calc_schedule loan_amt years int_rate = some (p, i, pr, mo, o)) :
    ∃ rows, calc_sched_aux int_rate (years * 12) 1 loan_amt = some rows ∧
      p = rows.map Row.payment ∧ i = rows.map Row.interest ∧
      pr = rows.map Row.principal ∧ mo = rows.map Row.month ∧
      o = rows.map Row.out_prin := by
  rw [calc_schedule, Option.map_eq_some'] at h
  obtain ⟨rows, hrows, heq⟩ := h
  cases heq
  exact ⟨rows, hrows, rfl, rfl, rfl, rfl, rfl⟩

/-! ### The closed form of a positive-rate schedule -/

lemma balAt_zero (int_rate P : ℚ) : balAt int_rate P 0 = 0 := by
  simp [balAt]

lemma balAt_pos {int_rate P : ℚ} (hr : 0 < int_rate) (hP : 0 < P)
    {k : ℕ} (hk : 1 ≤ k) : 0 < balAt int_rate P k := by
  have hD := denom_pos hr hk
  have hr' : 0 < int_rate / (12 * 100) := div_pos hr (by norm_num)
  exact div_pos (mul_pos hP hD) hr'

lemma balAt_step {int_rate P : ℚ} (hr : 0 < int_rate) (k : ℕ) :
    balAt int_rate P (k+1)
      - (P - (int_rate / (12 * 100)) * balAt int_rate P (k+1))
      = balAt int_rate P k := by
  have ha : (0:ℚ) < 1 + int_rate / (12 * 100) := lt_trans one_pos (rate_one_lt hr)
  have hy : (1 + int_rate / (12 * 100)) ^ k ≠ 0 := (pow_pos ha k).ne'
  have hane : (1 + int_rate / (12 * 100)) ≠ 0 := ha.ne'
  have hrne : int_rate / (12 * 100) ≠ 0 := (div_pos hr (by norm_num)).ne'
  unfold balAt
  rw [rate_zpow_eq_inv_pow, rate_zpow_eq_inv_pow, pow_succ]
  field_simp
  ring

lemma mulDiv_roundtrip1 (P D r : ℚ) (hD : D ≠ 0) (hr : r ≠ 0) :
    P * D / r * r / D = P := by
  field_simp

lemma mulDiv_roundtrip2 (L D r : ℚ) (hD : D ≠ 0) (hr : r ≠ 0) :
    L * r / D * D / r = L := by
  field_simp

lemma calc_mon_pay_balAt {int_rate P : ℚ} (hr : 0 < int_rate) (k : ℕ) :
    calc_mon_pay (balAt int_rate P (k+1)) (k+1) int_rate
      = some (P, (int_rate / (12 * 100)) * balAt int_rate P (k+1),
              P - (int_rate / (12 * 100)) * balAt int_rate P (k+1)) := by
  have h := calc_mon_pay_pos_rate hr (show 1 ≤ k+1 by omega)
    (balAt int_rate P (k+1))
  rw [h]
  have hD : 1 - (1 + int_rate / (12 * 100)) ^ (-((k+1 : ℕ) : ℤ)) ≠ 0 :=
    (denom_pos hr (show 1 ≤ k+1 by omega)).ne'
  have hrne : int_rate / (12 * 100) ≠ 0 := (div_pos hr (by norm_num)).ne'
  have hA : balAt int_rate P (k+1) * (int_rate / (12 * 100)) /
      (1 - (1 + int_rate / (12 * 100)) ^ (-((k+1 : ℕ) : ℤ))) = P := by
    unfold balAt
    exact mulDiv_roundtrip1 _ _ _ hD hrne
  rw [hA]

lemma aux_schedList {int_rate P : ℚ} (hr : 0 < int_rate) (hP : 0 < P) :
    ∀ (k month : ℕ),
      calc_sched_aux int_rate k month (balAt int_rate P k)
        = some (schedList int_rate P k month)
  | 0, month => rfl
  | k+1, month => by
      have hc := calc_mon_pay_balAt (P := P) hr k
      have hstep := balAt_step (P := P) hr k
      cases k with
      | zero =>
          refine aux_step_last hc hstep ?_
          rw [balAt_zero]
      | succ k' =>
          exact aux_step_cont hc hstep
            (not_le.mpr (balAt_pos hr hP (by omega)))
            (aux_schedList hr hP (k'+1) (month+1))

lemma balAt_annuityP {L int_rate : ℚ} (hr : 0 < int_rate) {N : ℕ} (hN : 1 ≤ N) :
    balAt int_rate (annuityP L N int_rate) N = L := by
  have hD : 1 - (1 + int_rate / (12 * 100)) ^ (-(N : ℤ)) ≠ 0 :=
    (denom_pos hr hN).ne'
  have hrne : int_rate / (12 * 100) ≠ 0 := (div_pos hr (by norm_num)).ne'
  unfold balAt annuityP
  exact mulDiv_roundtrip2 _ _ _ hD hrne

lemma annuityP_pos {L int_rate : ℚ} (hr : 0 < int_rate) (hL : 0 < L)
    {N : ℕ} (hN : 1 ≤ N) : 0 < annuityP L N int_rate := by
  unfold annuityP
  exact div_pos (mul_pos hL (div_pos hr (by norm_num))) (denom_pos hr hN)

lemma calc_schedule_closed {L int_rate : ℚ} {years : ℕ}
    (hL : 0 < L) (hr : 0 < int_rate) (hy : 1 ≤ years) :
    calc_schedule L years int_rate = some
      ((schedList int_rate (annuityP L (years*12) int_rate) (years*12) 1).map
         Row.payment,
       (schedList int_rate (annuityP L (years*12) int_rate) (years*12) 1).map
         Row.interest,
       (schedList int_rate (annuityP L (years*12) int_rate) (years*12) 1).map
         Row.principal,
       (schedList int_rate (annuityP L (years*12) int_rate) (years*12) 1).map
         Row.month,
       (schedList int_rate (annuityP L (years*12) int_rate) (years*12) 1).map
         Row.out_prin) := by
  have hN : 1 ≤ years * 12 := by omega
  have hP := annuityP_pos (L := L) hr hL hN
  have hbal := balAt_annuityP (L := L) hr hN
  rw [calc_schedule]
  conv_lhs => rw [← hbal]
  rw [aux_schedList hr hP (years*12) 1]
  rfl

lemma schedList_length (int_rate P : ℚ) :
    ∀ (k month : ℕ), (schedList int_rate P k month).length = k
  | 0, _ => rfl
  | k+1, month => by
      simp only [schedList, List.length_cons,
        schedList_length int_rate P k (month+1)]

lemma schedList_map_payment (int_rate P : ℚ) :
    ∀ (k month : ℕ),
      (schedList int_rate P k month).map Row.payment = List.replicate k P
  | 0, _ => rfl
  | k+1, month => by
      simp only [schedList, List.map_cons,
        schedList_map_payment int_rate P k (month+1)]
      rfl

lemma replicate_getD :
    ∀ (k j : ℕ) (x : ℚ), j < k → (List.replicate k x).getD j 0 = x
  | 0, j, x, h => absurd h (by omega)
  | k+1, 0, x, h => rfl
  | k+1, j+1, x, h => by
      rw [List.replicate_succ, List.getD_cons_succ]
      exact replicate_getD k j x (by omega)

/-! ### A fully evaluated example schedule

Loan 4095 over 1 year at annual rate 1200% (periodic rate 1): the constant
payment is 4096 and every balance is exact, so the whole run can be checked
numerically. -/

def exRows : List Row :=
  [⟨4096, 4095, 1, 1, 4094⟩, ⟨4096, 4094, 2, 2, 4092⟩, ⟨4096, 4092, 4, 3, 4088⟩,
   ⟨4096, 4088, 8, 4, 4080⟩, ⟨4096, 4080, 16, 5, 4064⟩, ⟨4096, 4064, 32, 6, 4032⟩,
   ⟨4096, 4032, 64, 7, 3968⟩, ⟨4096, 3968, 128, 8, 3840⟩, ⟨4096, 3840, 256, 9, 3584⟩,
   ⟨4096, 3584, 512, 10, 3072⟩, ⟨4096, 3072, 1024, 11, 2048⟩, ⟨4096, 2048, 2048, 12, 0⟩]

def exPay : List ℚ := List.replicate 12 4096

def exInt : List ℚ :=
  [4095, 4094, 4092, 4088, 4080, 4064, 4032, 3968, 3840, 3584, 3072, 2048]

def exPrin : List ℚ := [1, 2, 4, 8, 16, 32, 64, 128, 256, 512, 1024, 2048]

def exMon : List ℕ := [1, 2, 3, 4, 5, 6, 7, 8, 9, 10, 11, 12]

def exOut : List ℚ :=
  [4094, 4092, 4088, 4080, 4064, 4032, 3968, 3840, 3584, 3072, 2048, 0]

lemma exRows_eval : calc_sched_aux 1200 12 1 4095 = some exRows := by
  have h1 : calc_sched_aux 1200 1 12 2048 = some (exRows.drop 11) :=
    aux_step_last (by norm_num [calc_mon_pay]) (by norm_num) (by norm_num)
  have h2 : calc_sched_aux 1200 2 11 3072 = some (exRows.drop 10) :=
    aux_step_cont (by norm_num [calc_mon_pay]) (by norm_num) (by norm_num) h1
  have h3 : calc_sched_aux 1200 3 10 3584 = some (exRows.drop 9) :=
    aux_step_cont (by norm_num [calc_mon_pay]) (by norm_num) (by norm_num) h2
  have h4 : calc_sched_aux 1200 4 9 3840 = some (exRows.drop 8) :=
    aux_step_cont (by norm_num [calc_mon_pay]) (by norm_num) (by norm_num) h3
  have h5 : calc_sched_aux 1200 5 8 3968 = some (exRows.drop 7) :=
    aux_step_cont (by norm_num [calc_mon_pay]) (by norm_num) (by norm_num) h4
  have h6 : calc_sched_aux 1200 6 7 4032 = some (exRows.drop 6) :=
    aux_step_cont (by norm_num [calc_mon_pay]) (by norm_num) (by norm_num) h5
  have h7 : calc_sched_aux 1200 7 6 4064 = some (exRows.drop 5) :=
    aux_step_cont (by norm_num [calc_mon_pay]) (by norm_num) (by norm_num) h6
  have h8 : calc_sched_aux 1200 8 5 4080 = some (exRows.drop 4) :=
    aux_step_cont (by norm_num [calc_mon_pay]) (by norm_num) (by norm_num) h7
  have h9 : calc_sched_aux 1200 9 4 4088 = some (exRows.drop 3) :=
    aux_step_cont (by norm_num [calc_mon_pay]) (by norm_num) (by norm_num) h8
  have h10 : calc_sched_aux 1200 10 3 4092 = some (exRows.drop 2) :=
    aux_step_cont (by norm_num [calc_mon_pay]) (by norm_num) (by norm_num) h9
  have h11 : calc_sched_aux 1200 11 2 4094 = some (exRows.drop 1) :=
    aux_step_cont (by norm_num [calc_mon_pay]) (by norm_num) (by norm_num) h10
  exact aux_step_cont (by norm_num [calc_mon_pay]) (by norm_num) (by norm_num) h11

lemma exSched_eval :
    calc_schedule 4095 1 1200 = some (exPay, exInt, exPrin, exMon, exOut) := by
  have h12 : calc_sched_aux 1200 (1 * 12) 1 4095 = some exRows := exRows_eval
  rw [calc_schedule, h12]
  rfl

lemma exSched_zero_rate : calc_schedule 100000 1 0 = none := by
  have h : calc_sched_aux 0 (1 * 12) 1 100000 = none := aux_zero_rate 11 1 100000
  rw [calc_schedule, h]
  rfl

lemma calc_schedule_zero_rate (loan_amt : ℚ) {years : ℕ} (hy : 1 ≤ years) :
    calc_schedule loan_amt years 0 = none := by
  obtain ⟨k, hk⟩ : ∃ k, years * 12 = k + 1 := ⟨years * 12 - 1, by omega⟩
  rw [calc_schedule, hk, aux_zero_rate]
  rfl

/-! ### The claims -/

/-- C1: for every outstanding balance `≥ 0`, every `periods_remaining ≥ 1`
and every annual rate `> 0`, `calc_mon_pay` returns
`payment = outstanding_balance * r / (1 - (1+r)^(-periods_remaining))` with
`r = annual_rate_pct / (12*100)`, `interest = r * outstanding_balance`, and
`principal = payment - interest`. -/
theorem calc_mon_pay_annuity (out_prin : ℚ) (months : ℕ) (int_rate : ℚ)
    (hb : 0 ≤ out_prin) (hm : 1 ≤ months) (hr : 0 < int_rate) :
    calc_mon_pay out_prin months int_rate = some
      (out_prin * (int_rate / (12 * 100)) /
         (1 - (1 + int_rate / (12 * 100)) ^ (-(months : ℤ))),
       (int_rate / (12 * 100)) * out_prin,
       out_prin * (int_rate / (12 * 100)) /
         (1 - (1 + int_rate / (12 * 100)) ^ (-(months : ℤ)))
         - (int_rate / (12 * 100)) * out_prin) :=
  calc_mon_pay_pos_rate hr hm out_prin

/-- Witness for C1 at balance 100, 1 period remaining, rate 1200%. -/
theorem calc_mon_pay_annuity_witness :
    (0:ℚ) ≤ 100 ∧ 1 ≤ 1 ∧ (0:ℚ) < 1200 ∧
    calc_mon_pay 100 1 1200 = some
      (100 * ((1200:ℚ) / (12 * 100)) /
         (1 - (1 + (1200:ℚ) / (12 * 100)) ^ (-((1:ℕ) : ℤ))),
       ((1200:ℚ) / (12 * 100)) * 100,
       100 * ((1200:ℚ) / (12 * 100)) /
         (1 - (1 + (1200:ℚ) / (12 * 100)) ^ (-((1:ℕ) : ℤ)))
         - ((1200:ℚ) / (12 * 100)) * 100) :=
  ⟨by norm_num, le_refl 1, by norm_num,
   calc_mon_pay_annuity 100 1 1200 (by norm_num) (le_refl 1) (by norm_num)⟩

/-- C2 (code bug): `calc_mon_pay` does NOT special-case a zero rate.  At
`annual_rate_pct = 0` the annuity denominator `1 - (1+0)^(-months)` is `0`
and the Python code raises `ZeroDivisionError` (modelled as `none`) instead
of returning `outstanding_balance / periods_remaining` with zero interest;
consequently `calc_schedule` also fails for a zero-rate loan instead of
producing the constant schedule the spec requires. -/
theorem calc_mon_pay_zero_rate_crash :
    calc_mon_pay 100000 12 0 = none ∧ calc_schedule 100000 1 0 = none :=
  ⟨calc_mon_pay_zero_rate 100000 12, exSched_zero_rate⟩

/-- C7 counterexample: on a negative outstanding balance `calc_mon_pay` does
not fail with any InvalidInput error; it happily evaluates the formulas
(balance -1, 1 period, rate 1200% gives payment -2, interest -1,
principal -1). -/
theorem calc_mon_pay_no_validation_cex :
    calc_mon_pay (-1) 1 1200 = some (-2, -1, -1) := by
  norm_num [calc_mon_pay]

/-- C7 (amended): `calc_mon_pay` performs no input validation at all.
Whenever no division by zero occurs — the power base is not `0` with a
positive exponent, and the annuity denominator is nonzero — it returns the
formula values even for negative `outstanding_balance` or negative
`annual_rate_pct`; and with `periods_remaining = 0` (the only
`periods_remaining < 1` case on naturals) it fails with a
division-by-zero error, not an InvalidInput-kind rejection. -/
theorem calc_mon_pay_no_validation (out_prin int_rate : ℚ) (months : ℕ)
    (h1 : ¬(1 + int_rate / (12 * 100) = 0 ∧ 0 < months))
    (h2 : 1 - (1 + int_rate / (12 * 100)) ^ (-(months : ℤ)) ≠ 0) :
    calc_mon_pay out_prin months int_rate = some
      (out_prin * (int_rate / (12 * 100)) /
         (1 - (1 + int_rate / (12 * 100)) ^ (-(months : ℤ))),
       (int_rate / (12 * 100)) * out_prin,
       out_prin * (int_rate / (12 * 100)) /
         (1 - (1 + int_rate / (12 * 100)) ^ (-(months : ℤ)))
         - (int_rate / (12 * 100)) * out_prin) ∧
    calc_mon_pay out_prin 0 int_rate = none :=
  ⟨calc_mon_pay_eq_some h1 h2, by simp [calc_mon_pay]⟩

/-- Witness for C7 (amended) at the negative balance -5, 2 periods,
rate 1200%. -/
theorem calc_mon_pay_no_validation_witness :
    (¬((1:ℚ) + 1200 / (12 * 100) = 0 ∧ 0 < 2)) ∧
    ((1:ℚ) - (1 + 1200 / (12 * 100)) ^ (-((2:ℕ) : ℤ)) ≠ 0) ∧
    (calc_mon_pay (-5) 2 1200 = some
      ((-5) * ((1200:ℚ) / (12 * 100)) /
         (1 - (1 + (1200:ℚ) / (12 * 100)) ^ (-((2:ℕ) : ℤ))),
       ((1200:ℚ) / (12 * 100)) * (-5),
       (-5) * ((1200:ℚ) / (12 * 100)) /
         (1 - (1 + (1200:ℚ) / (12 * 100)) ^ (-((2:ℕ) : ℤ)))
         - ((1200:ℚ) / (12 * 100)) * (-5)) ∧
     calc_mon_pay (-5) 0 1200 = none) :=
  ⟨by norm_num, by norm_num,
   calc_mon_pay_no_validation (-5) 1200 2 (by norm_num) (by norm_num)⟩

/-- C8: the early-window block of `main` fails (with an out-of-range
`IndexError`) exactly when the fixed window `W = 7*12 = 84` exceeds the
produced sequence length; otherwise it returns the interest summed over the
first 84 periods, its ratio to total interest (expressed in percent, as the
code scales by 100), and the outstanding balance at the end of period 84.
The hypothesis `tot_int ≠ 0` keeps the ratio division defined, as on every
real schedule. -/
theorem window_summary_range (int_h out_prin_h : List ℚ) (tot_int : ℚ)
    (ht : tot_int ≠ 0) :
    (window_summary int_h out_prin_h tot_int = none
        ↔ out_prin_h.length < 7 * 12) ∧
    (7 * 12 ≤ out_prin_h.length →
      window_summary int_h out_prin_h tot_int
        = some ((int_h.take (7 * 12)).sum,
                (int_h.take (7 * 12)).sum / tot_int * 100,
                out_prin_h.getD (7 * 12 - 1) 0)) := by
  constructor
  · rw [window_summary, if_neg ht, Option.map_eq_none', List.getElem?_eq_none_iff]
    omega
  · intro h84
    have hidx : 7 * 12 - 1 < out_prin_h.length := by omega
    rw [window_summary, if_neg ht, List.getElem?_eq_getElem hidx,
      Option.map_some', List.getD_eq_getElem _ _ hidx]

/-- Witness for C8 on an 84-period history. -/
theorem window_summary_range_witness :
    ((1:ℚ) ≠ 0) ∧
    ((window_summary (List.replicate 84 1) (List.replicate 84 2) 1 = none
        ↔ (List.replicate 84 (2:ℚ)).length < 7 * 12) ∧
     (7 * 12 ≤ (List.replicate 84 (2:ℚ)).length →
       window_summary (List.replicate 84 1) (List.replicate 84 2) 1
         = some (((List.replicate 84 (1:ℚ)).take (7 * 12)).sum,
                 ((List.replicate 84 (1:ℚ)).take (7 * 12)).sum / 1 * 100,
                 (List.replicate 84 (2:ℚ)).getD (7 * 12 - 1) 0))) :=
  ⟨by norm_num,
   window_summary_range (List.replicate 84 1) (List.replicate 84 2) 1 (by norm_num)⟩

/-- C3: for a valid loan (positive principal, non-negative rate, positive
term), the schedule produced by `calc_schedule` satisfies
`balance[i] = balance[i-1] - principal[i]` for every produced period `i`,
with `balance[0] = principal_amount` (indexing the extended balance list
`loan_amt :: out_prin_h`, whose entry `i ≥ 1` is the balance after
period `i`). -/
theorem calc_schedule_balance_recurrence
    (loan_amt int_rate : ℚ) (years : ℕ) (pay_h int_h prin_h : List ℚ)
    (month_h : List ℕ) (out_prin_h : List ℚ)
    (hL : 0 < loan_amt) (hr : 0 ≤ int_rate) (hy : 1 ≤ years)
    (h : calc_schedule loan_amt years int_rate
           = some (pay_h, int_h, prin_h, month_h, out_prin_h)) :
    (loan_amt :: out_prin_h).getD 0 0 = loan_amt ∧
    ∀ j, j < out_prin_h.length →
      (loan_amt :: out_prin_h).getD (j+1) 0
        = (loan_amt :: out_prin_h).getD j 0 - prin_h.getD j 0 := by
  obtain ⟨rows, hrows, hp, hi, hpr, hmo, ho⟩ := calc_schedule_inv h
  subst hp hi hpr hmo ho
  refine ⟨by simp, ?_⟩
  intro j hj
  have hj' : j < rows.length := by simpa using hj
  have hc := aux_chain int_rate (years * 12) 1 loan_amt rows hrows j hj'
  rw [List.getD_cons_succ]
  exact hc

/-- Witness for C3 on the exact 12-period schedule of loan 4095 at
rate 1200%. -/
theorem calc_schedule_balance_recurrence_witness :
    (0:ℚ) < 4095 ∧ (0:ℚ) ≤ 1200 ∧ 1 ≤ 1 ∧
    calc_schedule 4095 1 1200 = some (exPay, exInt, exPrin, exMon, exOut) ∧
    (((4095:ℚ) :: exOut).getD 0 0 = 4095 ∧
     ∀ j, j < exOut.length →
       ((4095:ℚ) :: exOut).getD (j+1) 0
         = ((4095:ℚ) :: exOut).getD j 0 - exPrin.getD j 0) :=
  ⟨by norm_num, by norm_num, le_refl 1, exSched_eval,
   calc_schedule_balance_recurrence 4095 1200 1 exPay exInt exPrin exMon exOut
     (by norm_num) (by norm_num) (le_refl 1) exSched_eval⟩

/-- C4: for a valid loan, every produced period satisfies
`payment = interest + principal` exactly (hence within any tolerance):
`calc_mon_pay` defines the principal component as payment minus interest. -/
theorem calc_schedule_payment_split
    (loan_amt int_rate : ℚ) (years : ℕ) (pay_h int_h prin_h : List ℚ)
    (month_h : List ℕ) (out_prin_h : List ℚ)
    (hL : 0 < loan_amt) (hr : 0 ≤ int_rate) (hy : 1 ≤ years)
    (h : calc_schedule loan_amt years int_rate
           = some (pay_h, int_h, prin_h, month_h, out_prin_h)) :
    ∀ j, j < pay_h.length →
      pay_h.getD j 0 = int_h.getD j 0 + prin_h.getD j 0 := by
  obtain ⟨rows, hrows, hp, hi, hpr, hmo, ho⟩ := calc_schedule_inv h
  subst hp hi hpr hmo ho
  intro j hj
  have hj' : j < rows.length := by simpa using hj
  rw [List.getD_eq_getElem _ _ (by simpa using hj'),
    List.getD_eq_getElem _ _ (by simpa using hj'),
    List.getD_eq_getElem _ _ (by simpa using hj')]
  simp only [List.getElem_map]
  exact aux_split int_rate (years * 12) 1 loan_amt rows hrows rows[j]
    (List.getElem_mem hj')

/-- Witness for C4 on the exact 12-period schedule. -/
theorem calc_schedule_payment_split_witness :
    (0:ℚ) < 4095 ∧ (0:ℚ) ≤ 1200 ∧ 1 ≤ 1 ∧
    calc_schedule 4095 1 1200 = some (exPay, exInt, exPrin, exMon, exOut) ∧
    ∀ j, j < exPay.length →
      exPay.getD j 0 = exInt.getD j 0 + exPrin.getD j 0 :=
  ⟨by norm_num, by norm_num, le_refl 1, exSched_eval,
   calc_schedule_payment_split 4095 1200 1 exPay exInt exPrin exMon exOut
     (by norm_num) (by norm_num) (le_refl 1) exSched_eval⟩

/-- C5: `calc_schedule` terminates (it is a total function of its fuel
`years*12`), produces at most `years*12` periods, a strictly shorter
sequence only ends because its last appended balance is `≤ 0`, and every
period before the last has balance `> 0` — i.e. the loop stops right after
the period in which the balance first drops to `≤ 0`, or after
`term_periods` iterations, whichever comes first. -/
theorem calc_schedule_length_stop
    (loan_amt int_rate : ℚ) (years : ℕ) (pay_h int_h prin_h : List ℚ)
    (month_h : List ℕ) (out_prin_h : List ℚ)
    (hL : 0 < loan_amt) (hr : 0 ≤ int_rate) (hy : 1 ≤ years)
    (h : calc_schedule loan_amt years int_rate
           = some (pay_h, int_h, prin_h, month_h, out_prin_h)) :
    out_prin_h.length ≤ years * 12 ∧
    (out_prin_h.length < years * 12 →
      0 < out_prin_h.length ∧
      out_prin_h.getD (out_prin_h.length - 1) 0 ≤ 0) ∧
    (∀ j, j + 1 < out_prin_h.length → 0 < out_prin_h.getD j 0) := by
  obtain ⟨rows, hrows, hp, hi, hpr, hmo, ho⟩ := calc_schedule_inv h
  subst hp hi hpr hmo ho
  refine ⟨?_, ?_, ?_⟩
  · simpa using aux_length_le int_rate (years * 12) 1 loan_amt rows hrows
  · intro hlt
    obtain ⟨h0, hlast⟩ := aux_short_last int_rate (years * 12) 1 loan_amt rows
      hrows (by simpa using hlt)
    refine ⟨by simpa using h0, ?_⟩
    simpa using hlast
  · intro j hj
    exact aux_pos_before_last int_rate (years * 12) 1 loan_amt rows hrows j
      (by simpa using hj)

/-- Witness for C5 on the exact 12-period schedule. -/
theorem calc_schedule_length_stop_witness :
    (0:ℚ) < 4095 ∧ (0:ℚ) ≤ 1200 ∧ 1 ≤ 1 ∧
    calc_schedule 4095 1 1200 = some (exPay, exInt, exPrin, exMon, exOut) ∧
    (exOut.length ≤ 1 * 12 ∧
     (exOut.length < 1 * 12 →
       0 < exOut.length ∧ exOut.getD (exOut.length - 1) 0 ≤ 0) ∧
     (∀ j, j + 1 < exOut.length → 0 < exOut.getD j 0)) :=
  ⟨by norm_num, by norm_num, le_refl 1, exSched_eval,
   calc_schedule_length_stop 4095 1200 1 exPay exInt exPrin exMon exOut
     (by norm_num) (by norm_num) (le_refl 1) exSched_eval⟩

/-- C6: for a valid loan (positive principal, non-negative rate, positive
term), the produced balance sequence is monotonically non-increasing:
each produced balance is at most the previous one (with the loan amount as
the balance before period 1). -/
theorem calc_schedule_balance_monotone
    (loan_amt int_rate : ℚ) (years : ℕ) (pay_h int_h prin_h : List ℚ)
    (month_h : List ℕ) (out_prin_h : List ℚ)
    (hL : 0 < loan_amt) (hr : 0 ≤ int_rate) (hy : 1 ≤ years)
    (h : calc_schedule loan_amt years int_rate
           = some (pay_h, int_h, prin_h, month_h, out_prin_h)) :
    ∀ j, j < out_prin_h.length →
      out_prin_h.getD j 0 ≤ (loan_amt :: out_prin_h).getD j 0 := by
  rcases eq_or_lt_of_le hr with hr0 | hrpos
  · exfalso
    rw [← hr0, calc_schedule_zero_rate loan_amt hy] at h
    simp at h
  · obtain ⟨rows, hrows, hp, hi, hpr, hmo, ho⟩ := calc_schedule_inv h
    subst hp hi hpr hmo ho
    intro j hj
    exact aux_monotone hrpos (years * 12) 1 loan_amt rows hL hrows j
      (by simpa using hj)

/-- Witness for C6 on the exact 12-period schedule. -/
theorem calc_schedule_balance_monotone_witness :
    (0:ℚ) < 4095 ∧ (0:ℚ) ≤ 1200 ∧ 1 ≤ 1 ∧
    calc_schedule 4095 1 1200 = some (exPay, exInt, exPrin, exMon, exOut) ∧
    ∀ j, j < exOut.length →
      exOut.getD j 0 ≤ ((4095:ℚ) :: exOut).getD j 0 :=
  ⟨by norm_num, by norm_num, le_refl 1, exSched_eval,
   calc_schedule_balance_monotone 4095 1200 1 exPay exInt exPrin exMon exOut
     (by norm_num) (by norm_num) (le_refl 1) exSched_eval⟩

/-- C10: for a loan with positive principal, positive rate and positive
term, recomputing the annuity payment each period from the reduced balance
and reduced remaining-period count yields a constant payment: every entry
of the produced `pay_h` equals `pay_h[0]`, the identity that lets `main`
use `pay_h[0]` as THE monthly payment. -/
theorem calc_schedule_payment_constant
    (loan_amt int_rate : ℚ) (years : ℕ) (pay_h int_h prin_h : List ℚ)
    (month_h : List ℕ) (out_prin_h : List ℚ)
    (hL : 0 < loan_amt) (hr : 0 < int_rate) (hy : 1 ≤ years)
    (h : calc_schedule loan_amt years int_rate
           = some (pay_h, int_h, prin_h, month_h, out_prin_h)) :
    ∀ j, j < pay_h.length → pay_h.getD j 0 = pay_h.getD 0 0 := by
  rw [calc_schedule_closed hL hr hy] at h
  have h' := Option.some.inj h
  injection h' with h1 h2
  subst h1
  rw [schedList_map_payment]
  intro j hj
  rw [List.length_replicate] at hj
  rw [replicate_getD _ j _ hj, replicate_getD _ 0 _ (by omega)]

/-- Witness for C10 on the exact 12-period schedule (constant payment
4096). -/
theorem calc_schedule_payment_constant_witness :
    (0:ℚ) < 4095 ∧ (0:ℚ) < 1200 ∧ 1 ≤ 1 ∧
    calc_schedule 4095 1 1200 = some (exPay, exInt, exPrin, exMon, exOut) ∧
    ∀ j, j < exPay.length → exPay.getD j 0 = exPay.getD 0 0 :=
  ⟨by norm_num, by norm_num, le_refl 1, exSched_eval,
   calc_schedule_payment_constant 4095 1200 1 exPay exInt exPrin exMon exOut
     (by norm_num) (by norm_num) (le_refl 1) exSched_eval⟩

/-- C9: the summary's total-payments figure
`tot_pay = down_pay + years*12*mon_pay` with
`mon_pay = pay_h[0] + hoa + ins + tax` equals the sum of the payment
components over all produced periods plus the caller-supplied fixed
non-loan charges (the down payment and `years*12` months of HOA, insurance
and property tax), because the payment is constant and the produced
sequence has exactly `years*12` periods; and the summary's total interest
is literally the sum of the interest components in accumulation order. -/
theorem tot_pay_decomposition
    (loan_amt int_rate down_pay mon_hoa mon_home_ins mon_prop_tax : ℚ)
    (years : ℕ) (pay_h int_h prin_h : List ℚ)
    (month_h : List ℕ) (out_prin_h : List ℚ)
    (hL : 0 < loan_amt) (hr : 0 < int_rate) (hy : 1 ≤ years)
    (h : calc_schedule loan_amt years int_rate
           = some (pay_h, int_h, prin_h, month_h, out_prin_h)) :
    tot_pay_of down_pay years
        (mon_pay_of pay_h mon_hoa mon_home_ins mon_prop_tax)
      = pay_h.sum
        + (down_pay
           + (years : ℚ) * 12 * (mon_hoa + mon_home_ins + mon_prop_tax)) ∧
    tot_int_of int_h = int_h.sum := by
  refine ⟨?_, rfl⟩
  rw [calc_schedule_closed hL hr hy] at h
  have h' := Option.some.inj h
  injection h' with h1 h2
  subst h1
  rw [schedList_map_payment]
  simp only [mon_pay_of, tot_pay_of]
  rw [List.sum_replicate, replicate_getD _ 0 _ (by omega), nsmul_eq_mul]
  push_cast
  ring

/-- Witness for C9 on the exact 12-period schedule with down payment 100
and monthly charges 10, 20, 30. -/
theorem tot_pay_decomposition_witness :
    (0:ℚ) < 4095 ∧ (0:ℚ) < 1200 ∧ 1 ≤ 1 ∧
    calc_schedule 4095 1 1200 = some (exPay, exInt, exPrin, exMon, exOut) ∧
    (tot_pay_of 100 1 (mon_pay_of exPay 10 20 30)
       = exPay.sum + (100 + ((1:ℕ) : ℚ) * 12 * (10 + 20 + 30)) ∧
     tot_int_of exInt = exInt.sum) :=
  ⟨by norm_num, by norm_num, le_refl 1, exSched_eval,
   tot_pay_decomposition 4095 1200 100 10 20 30 1 exPay exInt exPrin exMon exOut
     (by norm_num) (by norm_num) (le_refl 1) exSched_eval⟩
